import Mathlib

/-!
Shallow embedding of the SHIFT dimension subsystem.

The embedding follows the TypeScript source:
* `DimensionType`, the `DIMENSIONS` constants (Constants.ts);
* `Tile` / `TilemapLayer` with the Phaser layer operations the code uses
  (`setAlpha`, `forEachTile`, `setCollisionByExclusion`, `setDepth`,
  `Tile.setCollision`);
* `DimensionManager` with `init`, `shift`, `applyDimensionState` and the
  getters (DimensionManager.ts); the 200 ms `delayedCall` that re-enables
  shifting is modelled by the `pendingUnlock` field together with
  `stepTime`, which fires the scheduled callback once its time has come;
* `Enemy` with `onDimensionShift`, `canDamage`, `getDamage` (Enemy.ts);
* the GameScene pieces the claims mention: grid loading in
  `createTilemap` (`layerFromGrid`), the enemy notification loop in
  `GameScene.onDimensionShift` (`notifyEnemies`) and the player-enemy
  overlap callback installed by `rebuildEnemyCollider`
  (`overlapHandler`).

Alpha values are exact rationals; `GHOST_ALPHA` is the literal 1/5,
written as a raw `Rat.mk'` so that kernel evaluation (`decide`) works.
-/

inductive DimensionType where
  | lumina
  | umbra
deriving DecidableEq, Repr

namespace DIMENSIONS

def LUMINA : DimensionType := DimensionType.lumina

def UMBRA : DimensionType := DimensionType.umbra

def SHIFT_DURATION_MS : Nat := 200

def GHOST_ALPHA : ℚ := ⟨1, 5, by norm_num, by norm_num⟩

def LUMINA_TINT : Nat := 0xffcc44

def UMBRA_TINT : Nat := 0x6644cc

end DIMENSIONS

/-- The dimension that is not `d` (the ternary flip in `shift()`). -/
def flipDim : DimensionType → DimensionType
  | DimensionType.lumina => DimensionType.umbra
  | DimensionType.umbra => DimensionType.lumina

/-- One cell of a tilemap layer: tile index (occupancy), tint color and
collision flag, as read and written by `applyDimensionState`. -/
@[ext]
structure Tile where
  index : Int
  tint : Nat
  collides : Bool
deriving DecidableEq, Repr

/-- `tile.setCollision(c)`. -/
def Tile.setCollision (t : Tile) (c : Bool) : Tile :=
  { t with collides := c }

/-- A Phaser tilemap layer restricted to the state the subsystem touches:
layer alpha, draw depth, and the cells. -/
@[ext]
structure TilemapLayer where
  alpha : ℚ
  depth : Int
  tiles : List Tile
deriving DecidableEq, Repr

/-- `layer.setAlpha(a)`. -/
def TilemapLayer.setAlpha (l : TilemapLayer) (a : ℚ) : TilemapLayer :=
  { l with alpha := a }

/-- `layer.forEachTile(f)` with a callback that updates each tile. -/
def TilemapLayer.forEachTile (l : TilemapLayer) (f : Tile → Tile) : TilemapLayer :=
  { l with tiles := l.tiles.map f }

/-- `layer.setCollisionByExclusion(excluded)`: enable collision on every
tile whose index is not in `excluded`; tiles in the list are untouched. -/
def TilemapLayer.setCollisionByExclusion (l : TilemapLayer) (excluded : List Int) :
    TilemapLayer :=
  { l with tiles := l.tiles.map fun t => if t.index ∈ excluded then t else t.setCollision true }

/-- `layer.setDepth(d)`. -/
def TilemapLayer.setDepth (l : TilemapLayer) (d : Int) : TilemapLayer :=
  { l with depth := d }

/-- The `DimensionManager` state: the active dimension, the `isShifting`
lock, the pending `delayedCall` that will clear the lock (time at which it
fires), and the two tile layers. -/
@[ext]
structure DimensionManager where
  current : DimensionType
  isShifting : Bool
  pendingUnlock : Option Nat
  luminaLayer : TilemapLayer
  umbraLayer : TilemapLayer
deriving DecidableEq, Repr

namespace DimensionManager

/-- The active-layer half of `applyDimensionState`:
`setAlpha(1)`, clear tint on every tile, `setCollisionByExclusion([0,-1])`,
`setDepth(1)`. -/
def applyActivePart (l : TilemapLayer) : TilemapLayer :=
  ((((l.setAlpha 1).forEachTile fun t =>
      { t with tint := 0xffffff }).setCollisionByExclusion [0, -1]).setDepth 1)

/-- The inactive-layer half of `applyDimensionState`:
`setAlpha(GHOST_ALPHA)`, tint every tile with `inactiveTint`,
`setCollision(false)` on every tile, `setDepth(0)`. -/
def applyInactivePart (inactiveTint : Nat) (l : TilemapLayer) : TilemapLayer :=
  ((((l.setAlpha DIMENSIONS.GHOST_ALPHA).forEachTile fun t =>
      { t with tint := inactiveTint }).forEachTile fun t =>
      t.setCollision false).setDepth 0)

/-- `applyDimensionState()`: pick active/inactive layer from `current`
(the ghost tint is the tint of the dimension that is now inactive) and
push the dual-layer state. -/
def applyDimensionState (m : DimensionManager) : DimensionManager :=
  if m.current = DIMENSIONS.LUMINA then
    { m with
      luminaLayer := applyActivePart m.luminaLayer
      umbraLayer := applyInactivePart DIMENSIONS.UMBRA_TINT m.umbraLayer }
  else
    { m with
      umbraLayer := applyActivePart m.umbraLayer
      luminaLayer := applyInactivePart DIMENSIONS.LUMINA_TINT m.luminaLayer }

/-- `init(luminaLayer, umbraLayer, cb)`: store the layers and apply the
initial state (Lumina active by construction of the record). -/
def init (luminaLayer umbraLayer : TilemapLayer) : DimensionManager :=
  applyDimensionState
    { current := DIMENSIONS.LUMINA
      isShifting := false
      pendingUnlock := none
      luminaLayer := luminaLayer
      umbraLayer := umbraLayer }

/-- Advance the scene clock to `now`: the `delayedCall` scheduled by
`shift()` fires once its time has been reached and clears `isShifting`. -/
def stepTime (m : DimensionManager) (now : Nat) : DimensionManager :=
  match m.pendingUnlock with
  | some unlockAt =>
      if unlockAt ≤ now then { m with isShifting := false, pendingUnlock := none } else m
  | none => m

/-- `shift()` called at time `now`, also returning the state observed by
the `onShiftCallback` (`none` when the call is dropped by the
`isShifting` guard). The callback runs after `applyDimensionState` and
before the `delayedCall(SHIFT_DURATION_MS, ...)` is scheduled. -/
def shiftObs (m : DimensionManager) (now : Nat) :
    DimensionManager × Option DimensionManager :=
  let m0 := m.stepTime now
  if m0.isShifting then (m0, none)
  else
    let flipped :=
      { m0 with
        isShifting := true
        current := if m0.current = DIMENSIONS.LUMINA then DIMENSIONS.UMBRA else DIMENSIONS.LUMINA }
    let applied := flipped.applyDimensionState
    ({ applied with pendingUnlock := some (now + DIMENSIONS.SHIFT_DURATION_MS) }, some applied)

/-- `shift()` called at time `now` (resulting manager state only). -/
def shift (m : DimensionManager) (now : Nat) : DimensionManager :=
  (m.shiftObs now).1

/-- `getCurrent()`. -/
def getCurrent (m : DimensionManager) : DimensionType := m.current

/-- `getActiveLayer()`. -/
def getActiveLayer (m : DimensionManager) : TilemapLayer :=
  if m.current = DIMENSIONS.LUMINA then m.luminaLayer else m.umbraLayer

/-- `getInactiveLayer()`. -/
def getInactiveLayer (m : DimensionManager) : TilemapLayer :=
  if m.current = DIMENSIONS.LUMINA then m.umbraLayer else m.luminaLayer

/-- `getIsShifting()`. -/
def getIsShifting (m : DimensionManager) : Bool := m.isShifting

end DimensionManager

/-- A cell of `createBlankLayer`: index -1, no tint, no collision. -/
def blankTile : Tile :=
  { index := -1, tint := 0xffffff, collides := false }

/-- One cell of `GameScene.createTilemap`: `putTileAt(tileIndex, ...)` is
called only when the grid value is positive; other cells stay blank. -/
def placeTile (tileIndex : Int) : Tile :=
  if 0 < tileIndex then { index := tileIndex, tint := 0xffffff, collides := false }
  else blankTile

/-- The layer `GameScene.createTilemap` builds from one level grid. -/
def layerFromGrid (grid : List (List Int)) : TilemapLayer :=
  { alpha := 1, depth := 0, tiles := (grid.map fun row => row.map placeTile).flatten }

/-- The `Enemy` state the claims inspect: home dimension, contact damage,
the `isActive` flag, alpha, sprite tint (`none` is a cleared tint) and
the arcade body enable flag. Constructor defaults are Enemy.ts field
initializers / constructor effects. -/
@[ext]
structure Enemy where
  dimension : DimensionType
  damage : Nat := 1
  isActive : Bool := true
  alpha : ℚ := 1
  tint : Option Nat := none
  bodyEnable : Bool := true
deriving DecidableEq, Repr

namespace Enemy

/-- `onDimensionShift(currentDimension)`: recompute `isActive`, then set
alpha/tint/body accordingly. -/
def onDimensionShift (e : Enemy) (currentDimension : DimensionType) : Enemy :=
  if currentDimension = e.dimension then
    { e with isActive := true, alpha := 1, tint := none, bodyEnable := true }
  else
    { e with
      isActive := false
      alpha := DIMENSIONS.GHOST_ALPHA
      tint := some (if e.dimension = DIMENSIONS.LUMINA then DIMENSIONS.LUMINA_TINT
                    else DIMENSIONS.UMBRA_TINT)
      bodyEnable := false }

/-- `canDamage()`. -/
def canDamage (e : Enemy) : Bool := e.isActive

/-- `getDamage()`. -/
def getDamage (e : Enemy) : Nat := e.damage

/-- `getDimension()`. -/
def getDimension (e : Enemy) : DimensionType := e.dimension

end Enemy

/-- The enemy loop in `GameScene.onDimensionShift`: every live enemy is
notified with the new current dimension. -/
def notifyEnemies (enemies : List Enemy) (dim : DimensionType) : List Enemy :=
  enemies.map fun e => e.onDimensionShift dim

/-- The overlap callback installed by `GameScene.rebuildEnemyCollider`:
damage is applied only when `enemy.canDamage()` holds. The player type
and its `takeDamage` are parameters (Player.ts is not part of the
embedded core). -/
def overlapHandler {Player : Type} (takeDamage : Player → Nat → Player)
    (player : Player) (enemy : Enemy) : Player :=
  if enemy.canDamage then takeDamage player enemy.getDamage else player

/-- A sequence of notifications delivered to one enemy. -/
def applyShifts (e : Enemy) (dims : List DimensionType) : Enemy :=
  dims.foldl (fun acc d => acc.onDimensionShift d) e

/-- Operations that touch the tile layers during a level's lifetime. -/
inductive DimensionOp where
  | shiftAt (now : Nat)
  | applyState
deriving DecidableEq, Repr

/-- Run a sequence of manager operations. -/
def runOps (m : DimensionManager) (ops : List DimensionOp) : DimensionManager :=
  ops.foldl
    (fun acc op =>
      match op with
      | DimensionOp.shiftAt now => acc.shift now
      | DimensionOp.applyState => acc.applyDimensionState)
    m

/-- Cells with occupancy 0 (or the -1 sentinel) carry no collision flag. -/
def emptyNonSolid (l : TilemapLayer) : Prop :=
  ∀ t ∈ l.tiles, (t.index = 0 ∨ t.index = -1) → t.collides = false

instance (l : TilemapLayer) : Decidable (emptyNonSolid l) := by
  unfold emptyNonSolid
  infer_instance

/-- The ghost tint that marks dimension `d` when `d` is the inactive
(ghost) one: warm gold for Lumina, cool purple for Umbra. -/
def ghostTint (d : DimensionType) : Nat :=
  if d = DIMENSIONS.LUMINA then DIMENSIONS.LUMINA_TINT else DIMENSIONS.UMBRA_TINT

namespace DimensionManager

/-- Per-tile effect of `applyActivePart` on the cells. -/
def activeTileUpdate (t : Tile) : Tile :=
  if t.index ∈ ([0, -1] : List Int) then { t with tint := 0xffffff }
  else { t with tint := 0xffffff, collides := true }

/-- Per-tile effect of `applyInactivePart` on the cells. -/
def inactiveTileUpdate (c : Nat) (t : Tile) : Tile :=
  { t with tint := c, collides := false }

/-- The accepted branch of `shift()` before the delayed call is
scheduled: flip `current`, raise the lock, apply the dual-layer state. -/
def shiftApplied (m0 : DimensionManager) : DimensionManager :=
  applyDimensionState
    { m0 with
      isShifting := true
      current := if m0.current = DIMENSIONS.LUMINA then DIMENSIONS.UMBRA else DIMENSIONS.LUMINA }

end DimensionManager

/-- A small lumina layer as `createTilemap` builds it. -/
def sampleLumLayer : TilemapLayer := layerFromGrid [[1, 0]]

/-- A small umbra layer as `createTilemap` builds it. -/
def sampleUmbLayer : TilemapLayer := layerFromGrid [[2]]

/-- A freshly initialised manager over the sample layers. -/
def sampleManager : DimensionManager := DimensionManager.init sampleLumLayer sampleUmbLayer

/-- The post-shift manager state of the accepted sample shift. -/
def sampleShiftResult : DimensionManager := (sampleManager.shiftObs 0).1

/-- The state the transition notification observes during the accepted
sample shift. -/
def sampleShiftObserved : DimensionManager := DimensionManager.shiftApplied sampleManager

@[simp]
theorem DIMENSIONS.LUMINA_def : DIMENSIONS.LUMINA = DimensionType.lumina := rfl

@[simp]
theorem DIMENSIONS.UMBRA_def : DIMENSIONS.UMBRA = DimensionType.umbra := rfl

theorem DIMENSIONS.GHOST_ALPHA_eq : DIMENSIONS.GHOST_ALPHA = 1 / 5 := by
  rw [DIMENSIONS.GHOST_ALPHA, Rat.mk'_eq_divInt, Rat.divInt_eq_div]
  norm_num

@[simp]
theorem flipDim_lumina : flipDim DimensionType.lumina = DimensionType.umbra := rfl

@[simp]
theorem flipDim_umbra : flipDim DimensionType.umbra = DimensionType.lumina := rfl

theorem flipDim_ne (d : DimensionType) : flipDim d ≠ d := by
  cases d <;> simp [flipDim]

theorem eq_lumina_or_umbra (d : DimensionType) :
    d = DimensionType.lumina ∨ d = DimensionType.umbra := by
  cases d <;> simp

/-- Pointwise form of a `map` fixed point. -/
theorem map_fixed_pointwise {α : Type} {f : α → α} :
    ∀ {l : List α}, l.map f = l → ∀ x ∈ l, f x = x := by
  intro l
  induction l with
  | nil => simp
  | cons a tl ih =>
    intro h x hx
    simp only [List.map_cons, List.cons.injEq] at h
    rcases List.mem_cons.mp hx with rfl | hx
    · exact h.1
    · exact ih h.2 x hx

namespace DimensionManager

@[simp]
theorem applyActivePart_alpha (l : TilemapLayer) : (applyActivePart l).alpha = 1 := rfl

@[simp]
theorem applyActivePart_depth (l : TilemapLayer) : (applyActivePart l).depth = 1 := rfl

@[simp]
theorem applyActivePart_tiles (l : TilemapLayer) :
    (applyActivePart l).tiles = l.tiles.map activeTileUpdate := by
  simp only [applyActivePart, TilemapLayer.setDepth, TilemapLayer.setCollisionByExclusion,
    TilemapLayer.forEachTile, TilemapLayer.setAlpha, List.map_map]
  apply List.map_congr_left
  intro t _
  by_cases h : t.index ∈ ([0, -1] : List Int) <;>
    simp [activeTileUpdate, Tile.setCollision, h, Function.comp]

@[simp]
theorem applyInactivePart_alpha (c : Nat) (l : TilemapLayer) :
    (applyInactivePart c l).alpha = DIMENSIONS.GHOST_ALPHA := rfl

@[simp]
theorem applyInactivePart_depth (c : Nat) (l : TilemapLayer) :
    (applyInactivePart c l).depth = 0 := rfl

@[simp]
theorem applyInactivePart_tiles (c : Nat) (l : TilemapLayer) :
    (applyInactivePart c l).tiles = l.tiles.map (inactiveTileUpdate c) := by
  simp only [applyInactivePart, TilemapLayer.setDepth, TilemapLayer.forEachTile,
    TilemapLayer.setAlpha, List.map_map]
  apply List.map_congr_left
  intro t _
  simp [inactiveTileUpdate, Tile.setCollision, Function.comp]

@[simp]
theorem applyDimensionState_current (m : DimensionManager) :
    m.applyDimensionState.current = m.current := by
  unfold applyDimensionState
  split <;> rfl

@[simp]
theorem applyDimensionState_isShifting (m : DimensionManager) :
    m.applyDimensionState.isShifting = m.isShifting := by
  unfold applyDimensionState
  split <;> rfl

@[simp]
theorem applyDimensionState_pendingUnlock (m : DimensionManager) :
    m.applyDimensionState.pendingUnlock = m.pendingUnlock := by
  unfold applyDimensionState
  split <;> rfl

theorem applyDimensionState_activeLayer (m : DimensionManager) :
    m.applyDimensionState.getActiveLayer = applyActivePart m.getActiveLayer := by
  cases hc : m.current <;>
    simp [applyDimensionState, getActiveLayer, hc]

theorem applyDimensionState_inactiveLayer (m : DimensionManager) :
    m.applyDimensionState.getInactiveLayer =
      applyInactivePart (ghostTint (flipDim m.current)) m.getInactiveLayer := by
  cases hc : m.current <;>
    simp [applyDimensionState, getInactiveLayer, ghostTint, hc, flipDim]

@[simp]
theorem stepTime_current (m : DimensionManager) (now : Nat) :
    (m.stepTime now).current = m.current := by
  unfold stepTime
  cases m.pendingUnlock <;> simp only [] <;> split <;> rfl

@[simp]
theorem stepTime_luminaLayer (m : DimensionManager) (now : Nat) :
    (m.stepTime now).luminaLayer = m.luminaLayer := by
  unfold stepTime
  cases m.pendingUnlock <;> simp only [] <;> split <;> rfl

@[simp]
theorem stepTime_umbraLayer (m : DimensionManager) (now : Nat) :
    (m.stepTime now).umbraLayer = m.umbraLayer := by
  unfold stepTime
  cases m.pendingUnlock <;> simp only [] <;> split <;> rfl

end DimensionManager

namespace DimensionManager

theorem activeTileUpdate_index (t : Tile) : (activeTileUpdate t).index = t.index := by
  unfold activeTileUpdate
  split <;> rfl

theorem activeTileUpdate_tint (t : Tile) : (activeTileUpdate t).tint = 0xffffff := by
  unfold activeTileUpdate
  split <;> rfl

theorem activeTileUpdate_collides_of_occupied (t : Tile) (h : 0 < t.index) :
    (activeTileUpdate t).collides = true := by
  have hmem : t.index ∉ ([0, -1] : List Int) := by
    intro hmem
    rcases List.mem_cons.mp hmem with h0 | h1
    · omega
    · rcases List.mem_singleton.mp h1 with h2
      omega
  simp [activeTileUpdate, hmem]

theorem activeTileUpdate_collides_of_empty (t : Tile) (h : t.index = 0 ∨ t.index = -1) :
    (activeTileUpdate t).collides = t.collides := by
  have hmem : t.index ∈ ([0, -1] : List Int) := by
    simpa using h
  simp [activeTileUpdate, hmem]

theorem activeTileUpdate_idem (t : Tile) :
    activeTileUpdate (activeTileUpdate t) = activeTileUpdate t := by
  by_cases h : t.index ∈ ([0, -1] : List Int) <;>
    simp [activeTileUpdate, h]

theorem inactiveTileUpdate_idem (c : Nat) (t : Tile) :
    inactiveTileUpdate c (inactiveTileUpdate c t) = inactiveTileUpdate c t := rfl

theorem applyActivePart_idem (l : TilemapLayer) :
    applyActivePart (applyActivePart l) = applyActivePart l := by
  apply TilemapLayer.ext
  · simp
  · simp
  · simp only [applyActivePart_tiles, List.map_map]
    exact List.map_congr_left fun t _ => activeTileUpdate_idem t

theorem applyInactivePart_idem (c : Nat) (l : TilemapLayer) :
    applyInactivePart c (applyInactivePart c l) = applyInactivePart c l := by
  apply TilemapLayer.ext
  · simp
  · simp
  · simp only [applyInactivePart_tiles, List.map_map]
    exact List.map_congr_left fun t _ => inactiveTileUpdate_idem c t

end DimensionManager

/-- C7: the dual-layer tile-state application is a deterministic function
of the manager state and is idempotent: applying `applyDimensionState`
twice in succession with the same active dimension produces exactly the
layer state (alpha, tint, collision flags, depth) of applying it once,
for every starting layer state. -/
theorem apply_dimension_state_idempotent (m : DimensionManager) :
    m.applyDimensionState.applyDimensionState = m.applyDimensionState := by
  cases hc : m.current
  · simp only [DimensionManager.applyDimensionState, hc, DIMENSIONS.LUMINA_def, if_pos]
    simp [DimensionManager.applyActivePart_idem, DimensionManager.applyInactivePart_idem]
  · simp only [DimensionManager.applyDimensionState, hc, DIMENSIONS.LUMINA_def]
    simp [DimensionManager.applyActivePart_idem, DimensionManager.applyInactivePart_idem]

namespace DimensionManager

theorem shiftObs_dropped (m : DimensionManager) (now : Nat)
    (h : (m.stepTime now).isShifting = true) :
    m.shiftObs now = (m.stepTime now, none) := by
  simp [shiftObs, h]

theorem shiftObs_accepted (m : DimensionManager) (now : Nat)
    (h : (m.stepTime now).isShifting = false) :
    m.shiftObs now =
      ({ shiftApplied (m.stepTime now) with
          pendingUnlock := some (now + DIMENSIONS.SHIFT_DURATION_MS) },
        some (shiftApplied (m.stepTime now))) := by
  simp [shiftObs, shiftApplied, h]

@[simp]
theorem shiftApplied_current (m0 : DimensionManager) :
    (shiftApplied m0).current = flipDim m0.current := by
  cases hc : m0.current <;> simp [shiftApplied, hc]

theorem shiftApplied_layers_of_lumina (m0 : DimensionManager)
    (hc : m0.current = DimensionType.lumina) :
    (shiftApplied m0).luminaLayer =
        applyInactivePart DIMENSIONS.LUMINA_TINT m0.luminaLayer ∧
      (shiftApplied m0).umbraLayer = applyActivePart m0.umbraLayer := by
  constructor <;> simp [shiftApplied, applyDimensionState, hc]

theorem shiftApplied_layers_of_umbra (m0 : DimensionManager)
    (hc : m0.current = DimensionType.umbra) :
    (shiftApplied m0).umbraLayer =
        applyInactivePart DIMENSIONS.UMBRA_TINT m0.umbraLayer ∧
      (shiftApplied m0).luminaLayer = applyActivePart m0.luminaLayer := by
  constructor <;> simp [shiftApplied, applyDimensionState, hc]

end DimensionManager

/-- C5: at every state of the machine exactly one of the two dimensions
(PRIMARY/Lumina, SECONDARY/Umbra) is reported active by `getCurrent`
(never both, never neither), and every `shift()` call either leaves the
active dimension unchanged (exactly when it is dropped) or swaps it to
the unique other dimension (exactly when it is accepted). -/
theorem exactly_one_dimension_active (m : DimensionManager) (now : Nat) :
    ((m.getCurrent = DIMENSIONS.LUMINA ∧ ¬m.getCurrent = DIMENSIONS.UMBRA) ∨
      (m.getCurrent = DIMENSIONS.UMBRA ∧ ¬m.getCurrent = DIMENSIONS.LUMINA)) ∧
    flipDim m.getCurrent ≠ m.getCurrent ∧
    ((m.shiftObs now).2 = none → (m.shift now).getCurrent = m.getCurrent) ∧
    (∀ o, (m.shiftObs now).2 = some o →
      (m.shift now).getCurrent = flipDim m.getCurrent) := by
  refine ⟨?_, flipDim_ne _, ?_, ?_⟩
  · cases hc : m.current
    · exact Or.inl (by simp [DimensionManager.getCurrent, hc])
    · exact Or.inr (by simp [DimensionManager.getCurrent, hc])
  · intro hnone
    cases h : (m.stepTime now).isShifting
    · rw [DimensionManager.shiftObs_accepted m now h] at hnone
      simp at hnone
    · rw [DimensionManager.shift, DimensionManager.shiftObs_dropped m now h]
      simp [DimensionManager.getCurrent]
  · intro o hsome
    cases h : (m.stepTime now).isShifting
    · rw [DimensionManager.shift, DimensionManager.shiftObs_accepted m now h]
      simp [DimensionManager.getCurrent]
    · rw [DimensionManager.shiftObs_dropped m now h] at hsome
      simp at hsome

/-- C5 witness: the exclusivity statement evaluated at a concrete state
(the freshly constructed manager on two one-cell layers) and a concrete
call time. -/
theorem exactly_one_dimension_active_witness :
    ((DimensionManager.init (layerFromGrid [[1]]) (layerFromGrid [[2]])).shiftObs 0).2 ≠ none ∧
    ((DimensionManager.init (layerFromGrid [[1]]) (layerFromGrid [[2]])).shift 0).getCurrent =
      DimensionType.umbra := by
  constructor
  · decide
  · have h := exactly_one_dimension_active
      (DimensionManager.init (layerFromGrid [[1]]) (layerFromGrid [[2]])) 0
    have hcur : (DimensionManager.init (layerFromGrid [[1]]) (layerFromGrid [[2]])).getCurrent =
        DimensionType.lumina := by decide
    have hobs := h.2.2.2
    rcases hsnd : ((DimensionManager.init (layerFromGrid [[1]]) (layerFromGrid [[2]])).shiftObs 0).2 with _ | o
    · exact absurd hsnd (by decide)
    · rw [hobs o hsnd, hcur]
      rfl
/-- C3: whenever the dimension state is applied, the now-active layer gets
alpha 1, neutral tint 0xffffff on every cell, collision enabled on every
occupied cell, and draw depth above the other layer; the now-inactive
layer gets alpha 0.2, the ghost tint of the dimension that is now the
ghost (0xffcc44 for Lumina-as-ghost, 0x6644cc for Umbra-as-ghost) on
every cell, collision disabled on every occupied cell, and draw depth
below the active layer. -/
theorem apply_dimension_state_divergence (m : DimensionManager) :
    m.applyDimensionState.getActiveLayer.alpha = 1 ∧
    (∀ t ∈ m.applyDimensionState.getActiveLayer.tiles, t.tint = 0xffffff) ∧
    (∀ t ∈ m.applyDimensionState.getActiveLayer.tiles, 0 < t.index → t.collides = true) ∧
    m.applyDimensionState.getInactiveLayer.depth <
      m.applyDimensionState.getActiveLayer.depth ∧
    m.applyDimensionState.getInactiveLayer.alpha = 1 / 5 ∧
    (∀ t ∈ m.applyDimensionState.getInactiveLayer.tiles,
      t.tint = ghostTint (flipDim m.current)) ∧
    (∀ t ∈ m.applyDimensionState.getInactiveLayer.tiles, 0 < t.index → t.collides = false) ∧
    ghostTint DimensionType.lumina = 0xffcc44 ∧
    ghostTint DimensionType.umbra = 0x6644cc := by
  have hA := DimensionManager.applyDimensionState_activeLayer m
  have hI := DimensionManager.applyDimensionState_inactiveLayer m
  rw [hA, hI]
  refine ⟨by simp, ?_, ?_, by simp, by simp [DIMENSIONS.GHOST_ALPHA_eq], ?_, ?_, rfl, rfl⟩
  · intro t ht
    rw [DimensionManager.applyActivePart_tiles] at ht
    rcases List.mem_map.mp ht with ⟨s, _, rfl⟩
    exact DimensionManager.activeTileUpdate_tint s
  · intro t ht hidx
    rw [DimensionManager.applyActivePart_tiles] at ht
    rcases List.mem_map.mp ht with ⟨s, _, rfl⟩
    apply DimensionManager.activeTileUpdate_collides_of_occupied
    rwa [DimensionManager.activeTileUpdate_index] at hidx
  · intro t ht
    rw [DimensionManager.applyInactivePart_tiles] at ht
    rcases List.mem_map.mp ht with ⟨s, _, rfl⟩
    rfl
  · intro t ht _
    rw [DimensionManager.applyInactivePart_tiles] at ht
    rcases List.mem_map.mp ht with ⟨s, _, rfl⟩
    rfl

/-- C3 witness: the divergence statement instantiated on the sample
manager, with the occupied cells of both layers named concretely. -/
theorem apply_dimension_state_divergence_witness :
    (⟨1, 0xffffff, true⟩ : Tile) ∈
      sampleManager.applyDimensionState.getActiveLayer.tiles ∧
    (0 : Int) < 1 ∧
    (true : Bool) = true ∧
    (⟨2, DIMENSIONS.UMBRA_TINT, false⟩ : Tile) ∈
      sampleManager.applyDimensionState.getInactiveLayer.tiles ∧
    (⟨2, DIMENSIONS.UMBRA_TINT, false⟩ : Tile).tint =
      ghostTint (flipDim sampleManager.current) := by
  refine ⟨by decide, by decide, ?_, by decide, ?_⟩
  · exact (apply_dimension_state_divergence sampleManager).2.2.1
      ⟨1, 0xffffff, true⟩ (by decide) (by decide)
  · exact (apply_dimension_state_divergence sampleManager).2.2.2.2.2.1
      ⟨2, DIMENSIONS.UMBRA_TINT, false⟩ (by decide)

/-- C10: `init` itself performs the dual-layer state application with the
default active dimension (Lumina): before any `shift()` call the Lumina
layer already has alpha 1, neutral tint, collision enabled on occupied
cells and is drawn on top, while the Umbra layer has alpha 0.2, the Umbra
ghost tint, collision disabled, and is drawn underneath. -/
theorem init_applies_initial_divergence (lum umb : TilemapLayer) :
    (DimensionManager.init lum umb).getCurrent = DIMENSIONS.LUMINA ∧
    (DimensionManager.init lum umb).luminaLayer.alpha = 1 ∧
    (∀ t ∈ (DimensionManager.init lum umb).luminaLayer.tiles, t.tint = 0xffffff) ∧
    (∀ t ∈ (DimensionManager.init lum umb).luminaLayer.tiles,
      0 < t.index → t.collides = true) ∧
    (DimensionManager.init lum umb).umbraLayer.alpha = 1 / 5 ∧
    (∀ t ∈ (DimensionManager.init lum umb).umbraLayer.tiles,
      t.tint = DIMENSIONS.UMBRA_TINT) ∧
    (∀ t ∈ (DimensionManager.init lum umb).umbraLayer.tiles, t.collides = false) ∧
    (DimensionManager.init lum umb).umbraLayer.depth <
      (DimensionManager.init lum umb).luminaLayer.depth := by
  have hL : (DimensionManager.init lum umb).luminaLayer =
      DimensionManager.applyActivePart lum := by
    simp [DimensionManager.init, DimensionManager.applyDimensionState]
  have hU : (DimensionManager.init lum umb).umbraLayer =
      DimensionManager.applyInactivePart DIMENSIONS.UMBRA_TINT umb := by
    simp [DimensionManager.init, DimensionManager.applyDimensionState]
  rw [hL, hU]
  refine ⟨rfl, by simp, ?_, ?_, by simp [DIMENSIONS.GHOST_ALPHA_eq], ?_, ?_, by simp⟩
  · intro t ht
    rw [DimensionManager.applyActivePart_tiles] at ht
    rcases List.mem_map.mp ht with ⟨s, _, rfl⟩
    exact DimensionManager.activeTileUpdate_tint s
  · intro t ht hidx
    rw [DimensionManager.applyActivePart_tiles] at ht
    rcases List.mem_map.mp ht with ⟨s, _, rfl⟩
    apply DimensionManager.activeTileUpdate_collides_of_occupied
    rwa [DimensionManager.activeTileUpdate_index] at hidx
  · intro t ht
    rw [DimensionManager.applyInactivePart_tiles] at ht
    rcases List.mem_map.mp ht with ⟨s, _, rfl⟩
    rfl
  · intro t ht
    rw [DimensionManager.applyInactivePart_tiles] at ht
    rcases List.mem_map.mp ht with ⟨s, _, rfl⟩
    rfl

/-- C10 witness: the initial divergence at the sample layers, with a
concrete occupied cell in each layer. -/
theorem init_applies_initial_divergence_witness :
    (⟨1, 0xffffff, true⟩ : Tile) ∈ sampleManager.luminaLayer.tiles ∧
    (0 : Int) < 1 ∧
    (⟨1, 0xffffff, true⟩ : Tile).collides = true ∧
    (⟨2, DIMENSIONS.UMBRA_TINT, false⟩ : Tile) ∈ sampleManager.umbraLayer.tiles ∧
    (⟨2, DIMENSIONS.UMBRA_TINT, false⟩ : Tile).collides = false := by
  refine ⟨by decide, by decide, ?_, by decide, ?_⟩
  · exact (init_applies_initial_divergence sampleLumLayer sampleUmbLayer).2.2.2.1
      ⟨1, 0xffffff, true⟩ (by decide) (by decide)
  · exact (init_applies_initial_divergence sampleLumLayer sampleUmbLayer).2.2.2.2.2.2.1
      ⟨2, DIMENSIONS.UMBRA_TINT, false⟩ (by decide)

namespace DimensionManager

theorem applyActivePart_tint_white (l : TilemapLayer) :
    ∀ t ∈ (applyActivePart l).tiles, t.tint = 0xffffff := by
  intro t ht
  rw [applyActivePart_tiles] at ht
  rcases List.mem_map.mp ht with ⟨s, _, rfl⟩
  exact activeTileUpdate_tint s

theorem applyActivePart_occupied_collides (l : TilemapLayer) :
    ∀ t ∈ (applyActivePart l).tiles, 0 < t.index → t.collides = true := by
  intro t ht hidx
  rw [applyActivePart_tiles] at ht
  rcases List.mem_map.mp ht with ⟨s, _, rfl⟩
  apply activeTileUpdate_collides_of_occupied
  rwa [activeTileUpdate_index] at hidx

theorem applyInactivePart_tint_ghost (c : Nat) (l : TilemapLayer) :
    ∀ t ∈ (applyInactivePart c l).tiles, t.tint = c := by
  intro t ht
  rw [applyInactivePart_tiles] at ht
  rcases List.mem_map.mp ht with ⟨s, _, rfl⟩
  rfl

theorem applyInactivePart_collides_false (c : Nat) (l : TilemapLayer) :
    ∀ t ∈ (applyInactivePart c l).tiles, t.collides = false := by
  intro t ht
  rw [applyInactivePart_tiles] at ht
  rcases List.mem_map.mp ht with ⟨s, _, rfl⟩
  rfl

end DimensionManager

/-- C1: a `shift()` call made while the transition lock is held (before
the scheduled unlock of an accepted shift has fired) is a silent no-op:
the whole manager state — active dimension, both tile layers, lock
expiry — is unchanged, and no notification is emitted; a `shift()` call
made after the lock has fired toggles the active dimension. -/
theorem shift_during_lock_is_noop (m : DimensionManager) (u t1 t2 : Nat)
    (h1 : m.isShifting = true) (h2 : m.pendingUnlock = some u)
    (hlt : t1 < u) (hge : u ≤ t2) :
    m.shiftObs t1 = (m, none) ∧
    (m.shift t2).getCurrent = flipDim m.getCurrent := by
  have hstep1 : m.stepTime t1 = m := by
    simp only [DimensionManager.stepTime, h2]
    rw [if_neg (by omega)]
  constructor
  · rw [DimensionManager.shiftObs_dropped m t1 (by rw [hstep1, h1]), hstep1]
  · have hstep2 : (m.stepTime t2).isShifting = false := by
      simp only [DimensionManager.stepTime, h2]
      rw [if_pos hge]
    rw [DimensionManager.shift, DimensionManager.shiftObs_accepted m t2 hstep2]
    simp [DimensionManager.getCurrent]

/-- C1 witness: the concrete cooldown scenario on the sample manager:
the shift at t = 0 is accepted (Umbra becomes active), the shift at
t = 150 is a complete no-op, and the shift at t = 250 toggles back to
Lumina. -/
theorem shift_during_lock_is_noop_witness :
    (sampleManager.shift 0).getCurrent = DimensionType.umbra ∧
    (sampleManager.shift 0).shiftObs 150 = (sampleManager.shift 0, none) ∧
    (((sampleManager.shift 0).shift 150).shift 250).getCurrent = DimensionType.lumina := by
  have h := shift_during_lock_is_noop (sampleManager.shift 0) 200 150 250
    (by decide) (by decide) (by decide) (by decide)
  refine ⟨by decide, h.1, ?_⟩
  have hnoop : (sampleManager.shift 0).shift 150 = sampleManager.shift 0 := by
    rw [DimensionManager.shift, h.1]
  rw [hnoop, h.2]
  decide

/-- C2: within every accepted `shift()` call the dual-layer tile-state
application completes synchronously before the transition notification
is invoked: the state the callback observes has collision enabled on
every occupied cell of the new active layer and disabled on every
occupied cell of the inactive layer, and its layers (and active
dimension) are exactly the fully-applied final ones — never a
partially-applied layer state. -/
theorem shift_notification_sees_applied_state (m m1 o : DimensionManager) (now : Nat)
    (h : m.shiftObs now = (m1, some o)) :
    (∀ t ∈ o.getActiveLayer.tiles, 0 < t.index → t.collides = true) ∧
    (∀ t ∈ o.getInactiveLayer.tiles, 0 < t.index → t.collides = false) ∧
    o.luminaLayer = m1.luminaLayer ∧
    o.umbraLayer = m1.umbraLayer ∧
    o.current = m1.current := by
  cases hs : (m.stepTime now).isShifting
  case true =>
    rw [DimensionManager.shiftObs_dropped m now hs] at h
    simp at h
  case false =>
    rw [DimensionManager.shiftObs_accepted m now hs] at h
    rw [Prod.mk.injEq] at h
    obtain ⟨hfst, hsnd⟩ := h
    have ho : o = DimensionManager.shiftApplied (m.stepTime now) :=
      (Option.some.injEq _ _ ▸ hsnd).symm
    subst ho
    rw [← hfst]
    refine ⟨?_, ?_, rfl, rfl, rfl⟩
    · rw [DimensionManager.shiftApplied, DimensionManager.applyDimensionState_activeLayer]
      exact DimensionManager.applyActivePart_occupied_collides _
    · rw [DimensionManager.shiftApplied, DimensionManager.applyDimensionState_inactiveLayer]
      intro t ht _
      exact DimensionManager.applyInactivePart_collides_false _ _ t ht

/-- C2 witness: the notification-time state of the accepted sample
shift, with one concrete occupied cell per layer. -/
theorem shift_notification_sees_applied_state_witness :
    (⟨2, 0xffffff, true⟩ : Tile) ∈ sampleShiftObserved.getActiveLayer.tiles ∧
    (⟨2, 0xffffff, true⟩ : Tile).collides = true ∧
    (⟨1, DIMENSIONS.LUMINA_TINT, false⟩ : Tile) ∈
      sampleShiftObserved.getInactiveLayer.tiles ∧
    (⟨1, DIMENSIONS.LUMINA_TINT, false⟩ : Tile).collides = false ∧
    sampleShiftObserved.luminaLayer = sampleShiftResult.luminaLayer := by
  have h := shift_notification_sees_applied_state sampleManager
    sampleShiftResult sampleShiftObserved 0 (by decide)
  exact ⟨by decide, h.1 _ (by decide) (by decide), by decide,
    h.2.1 _ (by decide) (by decide), h.2.2.1⟩

namespace Enemy

theorem onDimensionShift_dimension (e : Enemy) (d : DimensionType) :
    (e.onDimensionShift d).dimension = e.dimension := by
  unfold onDimensionShift
  split <;> rfl

theorem onDimensionShift_damage (e : Enemy) (d : DimensionType) :
    (e.onDimensionShift d).damage = e.damage := by
  unfold onDimensionShift
  split <;> rfl

theorem onDimensionShift_isActive (e : Enemy) (d : DimensionType) :
    (e.onDimensionShift d).isActive = decide (d = e.dimension) := by
  by_cases h : d = e.dimension <;> simp [onDimensionShift, h]

end Enemy

theorem applyShifts_dimension (e : Enemy) (dims : List DimensionType) :
    (applyShifts e dims).dimension = e.dimension := by
  induction dims generalizing e with
  | nil => rfl
  | cons d ds ih =>
    rw [applyShifts, List.foldl_cons]
    rw [show List.foldl (fun acc d => acc.onDimensionShift d) (e.onDimensionShift d) ds =
      applyShifts (e.onDimensionShift d) ds from rfl]
    rw [ih, Enemy.onDimensionShift_dimension]

theorem applyShifts_append_one (e : Enemy) (ds : List DimensionType) (d : DimensionType) :
    applyShifts e (ds ++ [d]) = (applyShifts e ds).onDimensionShift d := by
  simp [applyShifts, List.foldl_append]

/-- C4: every enemy notified of a transition recomputes
`isActive = (home dimension = new active dimension)`; when active it gets
alpha 1, cleared tint and an enabled body; when inactive it gets alpha
0.2, its home dimension's ghost tint and a disabled body. The notified
enemy is exactly what the `GameScene.onDimensionShift` loop stores back
into the enemy list. -/
theorem enemy_transition_consistency (es : List Enemy) (dim : DimensionType) (e : Enemy)
    (he : e ∈ es) :
    e.onDimensionShift dim ∈ notifyEnemies es dim ∧
    (e.onDimensionShift dim).isActive = decide (dim = e.dimension) ∧
    (dim = e.dimension →
      (e.onDimensionShift dim).alpha = 1 ∧
      (e.onDimensionShift dim).tint = none ∧
      (e.onDimensionShift dim).bodyEnable = true) ∧
    (dim ≠ e.dimension →
      (e.onDimensionShift dim).alpha = 1 / 5 ∧
      (e.onDimensionShift dim).tint = some (ghostTint e.dimension) ∧
      (e.onDimensionShift dim).bodyEnable = false) := by
  refine ⟨List.mem_map.mpr ⟨e, he, rfl⟩, Enemy.onDimensionShift_isActive e dim, ?_, ?_⟩
  · intro hd
    simp [Enemy.onDimensionShift, hd]
  · intro hd
    refine ⟨?_, ?_, ?_⟩ <;>
      simp [Enemy.onDimensionShift, hd, ghostTint, DIMENSIONS.GHOST_ALPHA_eq]

/-- C4 witness: a concrete Umbra-homed enemy after a transition into and
a transition away from its home dimension. -/
theorem enemy_transition_consistency_witness :
    ({ dimension := DimensionType.umbra } : Enemy) ∈
      ([{ dimension := DimensionType.umbra }] : List Enemy) ∧
    (({ dimension := DimensionType.umbra } : Enemy).onDimensionShift
      DimensionType.umbra).alpha = 1 ∧
    (({ dimension := DimensionType.umbra } : Enemy).onDimensionShift
      DimensionType.umbra).tint = none ∧
    (({ dimension := DimensionType.umbra } : Enemy).onDimensionShift
      DimensionType.umbra).bodyEnable = true ∧
    (({ dimension := DimensionType.umbra } : Enemy).onDimensionShift
      DimensionType.lumina).alpha = 1 / 5 ∧
    (({ dimension := DimensionType.umbra } : Enemy).onDimensionShift
      DimensionType.lumina).tint = some (ghostTint DimensionType.umbra) ∧
    (({ dimension := DimensionType.umbra } : Enemy).onDimensionShift
      DimensionType.lumina).bodyEnable = false := by
  have hA := enemy_transition_consistency [{ dimension := DimensionType.umbra }]
    DimensionType.umbra { dimension := DimensionType.umbra } (by decide)
  have hB := enemy_transition_consistency [{ dimension := DimensionType.umbra }]
    DimensionType.lumina { dimension := DimensionType.umbra } (by decide)
  have h1 := hA.2.2.1 (by decide)
  have h2 := hB.2.2.2 (by decide)
  exact ⟨by decide, h1.1, h1.2.1, h1.2.2, h2.1, h2.2.1, h2.2.2⟩

/-- C9: after any nonempty sequence of transition notifications,
`canDamage()` returns true exactly when the most recently notified active
dimension equals the enemy's home dimension, and the player-enemy
overlap handler leaves the player untouched when the enemy is ghosted. -/
theorem ghosted_enemy_cannot_damage {Player : Type} (takeDamage : Player → Nat → Player)
    (p : Player) (e : Enemy) (ds : List DimensionType) (d : DimensionType) :
    ((applyShifts e (ds ++ [d])).canDamage = true ↔ d = e.dimension) ∧
    (d ≠ e.dimension →
      overlapHandler takeDamage p (applyShifts e (ds ++ [d])) = p) := by
  have hdim := applyShifts_dimension e ds
  rw [applyShifts_append_one]
  constructor
  · rw [Enemy.canDamage, Enemy.onDimensionShift_isActive, hdim]
    simp
  · intro hne
    have hfalse : ((applyShifts e ds).onDimensionShift d).canDamage = false := by
      rw [Enemy.canDamage, Enemy.onDimensionShift_isActive, hdim]
      simpa using hne
    simp [overlapHandler, hfalse]

/-- C9 witness: an Umbra enemy whose last notified dimension is Lumina
cannot damage a player with 5 health, for the concrete subtraction
damage function. -/
theorem ghosted_enemy_cannot_damage_witness :
    (applyShifts { dimension := DimensionType.umbra }
      [DimensionType.umbra, DimensionType.lumina]).canDamage = false ∧
    overlapHandler (fun (health dmg : Nat) => health - dmg) 5
      (applyShifts { dimension := DimensionType.umbra }
        [DimensionType.umbra, DimensionType.lumina]) = 5 := by
  have h := ghosted_enemy_cannot_damage (fun (health dmg : Nat) => health - dmg) 5
    { dimension := DimensionType.umbra } [DimensionType.umbra] DimensionType.lumina
  exact ⟨by decide, h.2 (by decide)⟩

namespace DimensionManager

theorem applyDimensionState_layers_lumina (m : DimensionManager)
    (hc : m.current = DimensionType.lumina) :
    m.applyDimensionState.luminaLayer = applyActivePart m.luminaLayer ∧
    m.applyDimensionState.umbraLayer =
      applyInactivePart DIMENSIONS.UMBRA_TINT m.umbraLayer := by
  constructor <;> simp [applyDimensionState, hc]

theorem applyDimensionState_layers_umbra (m : DimensionManager)
    (hc : m.current = DimensionType.umbra) :
    m.applyDimensionState.luminaLayer =
      applyInactivePart DIMENSIONS.LUMINA_TINT m.luminaLayer ∧
    m.applyDimensionState.umbraLayer = applyActivePart m.umbraLayer := by
  constructor <;> simp [applyDimensionState, hc]

end DimensionManager

theorem emptyNonSolid_applyActivePart (l : TilemapLayer) (h : emptyNonSolid l) :
    emptyNonSolid (DimensionManager.applyActivePart l) := by
  intro t ht hidx
  rw [DimensionManager.applyActivePart_tiles] at ht
  rcases List.mem_map.mp ht with ⟨s, hs, rfl⟩
  rw [DimensionManager.activeTileUpdate_index] at hidx
  rw [DimensionManager.activeTileUpdate_collides_of_empty s hidx]
  exact h s hs hidx

theorem emptyNonSolid_applyInactivePart (c : Nat) (l : TilemapLayer) :
    emptyNonSolid (DimensionManager.applyInactivePart c l) := by
  intro t ht _
  exact DimensionManager.applyInactivePart_collides_false c l t ht

theorem emptyNonSolid_applyDimensionState (m : DimensionManager)
    (hl : emptyNonSolid m.luminaLayer) (hu : emptyNonSolid m.umbraLayer) :
    emptyNonSolid m.applyDimensionState.luminaLayer ∧
    emptyNonSolid m.applyDimensionState.umbraLayer := by
  cases hc : m.current
  · obtain ⟨h1, h2⟩ := DimensionManager.applyDimensionState_layers_lumina m hc
    rw [h1, h2]
    exact ⟨emptyNonSolid_applyActivePart _ hl, emptyNonSolid_applyInactivePart _ _⟩
  · obtain ⟨h1, h2⟩ := DimensionManager.applyDimensionState_layers_umbra m hc
    rw [h1, h2]
    exact ⟨emptyNonSolid_applyInactivePart _ _, emptyNonSolid_applyActivePart _ hu⟩

theorem emptyNonSolid_shift (m : DimensionManager) (now : Nat)
    (hl : emptyNonSolid m.luminaLayer) (hu : emptyNonSolid m.umbraLayer) :
    emptyNonSolid (m.shift now).luminaLayer ∧ emptyNonSolid (m.shift now).umbraLayer := by
  rw [DimensionManager.shift]
  cases hs : (m.stepTime now).isShifting
  · rw [DimensionManager.shiftObs_accepted m now hs]
    have hl0 : emptyNonSolid (m.stepTime now).luminaLayer := by
      rw [DimensionManager.stepTime_luminaLayer]; exact hl
    have hu0 : emptyNonSolid (m.stepTime now).umbraLayer := by
      rw [DimensionManager.stepTime_umbraLayer]; exact hu
    exact emptyNonSolid_applyDimensionState _ hl0 hu0
  · rw [DimensionManager.shiftObs_dropped m now hs]
    constructor
    · rw [DimensionManager.stepTime_luminaLayer]; exact hl
    · rw [DimensionManager.stepTime_umbraLayer]; exact hu

theorem emptyNonSolid_runOps (ops : List DimensionOp) (m : DimensionManager)
    (hl : emptyNonSolid m.luminaLayer) (hu : emptyNonSolid m.umbraLayer) :
    emptyNonSolid (runOps m ops).luminaLayer ∧ emptyNonSolid (runOps m ops).umbraLayer := by
  induction ops generalizing m with
  | nil => exact ⟨hl, hu⟩
  | cons op ops ih =>
    cases op with
    | shiftAt now =>
      have hstep := emptyNonSolid_shift m now hl hu
      exact ih (m.shift now) hstep.1 hstep.2
    | applyState =>
      have hstep := emptyNonSolid_applyDimensionState m hl hu
      exact ih m.applyDimensionState hstep.1 hstep.2

theorem emptyNonSolid_layerFromGrid (g : List (List Int)) :
    emptyNonSolid (layerFromGrid g) := by
  intro t ht _
  simp only [layerFromGrid] at ht
  rcases List.mem_flatten.mp ht with ⟨row, hrow, htrow⟩
  rcases List.mem_map.mp hrow with ⟨r, _, rfl⟩
  rcases List.mem_map.mp htrow with ⟨i, _, rfl⟩
  unfold placeTile
  split <;> rfl

/-- C8: a tile cell whose occupancy value is 0 (and likewise the
nonexistent sentinel -1) is never collidable, in either dimension and in
both the active and the inactive role, after any sequence of `shift()`
calls and state applications starting from the level as `createTilemap`
builds and `init` applies it. -/
theorem empty_cells_never_collidable (g1 g2 : List (List Int)) (ops : List DimensionOp) :
    emptyNonSolid
      (runOps (DimensionManager.init (layerFromGrid g1) (layerFromGrid g2)) ops).luminaLayer ∧
    emptyNonSolid
      (runOps (DimensionManager.init (layerFromGrid g1) (layerFromGrid g2)) ops).umbraLayer := by
  have hinit := emptyNonSolid_applyDimensionState
    { current := DIMENSIONS.LUMINA
      isShifting := false
      pendingUnlock := none
      luminaLayer := layerFromGrid g1
      umbraLayer := layerFromGrid g2 }
    (emptyNonSolid_layerFromGrid g1) (emptyNonSolid_layerFromGrid g2)
  exact emptyNonSolid_runOps ops _ hinit.1 hinit.2

/-- C8 witness: after an accepted shift on the sample level, the blank
cell of the lumina layer (now the ghost layer) still carries no
collision flag. -/
theorem empty_cells_never_collidable_witness :
    (⟨-1, DIMENSIONS.LUMINA_TINT, false⟩ : Tile) ∈
      (runOps (DimensionManager.init (layerFromGrid [[1, 0]]) (layerFromGrid [[2]]))
        [DimensionOp.shiftAt 0]).luminaLayer.tiles ∧
    (⟨-1, DIMENSIONS.LUMINA_TINT, false⟩ : Tile).collides = false := by
  refine ⟨by decide, ?_⟩
  exact (empty_cells_never_collidable [[1, 0]] [[2]] [DimensionOp.shiftAt 0]).1
    ⟨-1, DIMENSIONS.LUMINA_TINT, false⟩ (by decide) (by decide)

theorem inactive_active_tile_cancel (c : Nat) (t : Tile) :
    DimensionManager.inactiveTileUpdate c (DimensionManager.activeTileUpdate t) =
      DimensionManager.inactiveTileUpdate c t := by
  by_cases hmem : t.index ∈ ([0, -1] : List Int) <;>
    simp [DimensionManager.activeTileUpdate, DimensionManager.inactiveTileUpdate, hmem]

theorem active_inactive_tile_cancel (c : Nat) (t : Tile)
    (hfix : DimensionManager.activeTileUpdate t = t)
    (hempty : (t.index = 0 ∨ t.index = -1) → t.collides = false) :
    DimensionManager.activeTileUpdate (DimensionManager.inactiveTileUpdate c t) = t := by
  obtain ⟨ti, tt, tc⟩ := t
  by_cases hmem : ti ∈ ([0, -1] : List Int)
  · have hidx : ti = 0 ∨ ti = -1 := by simpa using hmem
    have hcoll : tc = false := hempty hidx
    have htint : (0xffffff : Nat) = tt := by
      have h2 := congrArg Tile.tint hfix
      simpa [DimensionManager.activeTileUpdate, hmem] using h2
    simp [DimensionManager.activeTileUpdate, DimensionManager.inactiveTileUpdate, hmem,
      ← htint, hcoll]
  · have h2 := congrArg Tile.tint hfix
    have h3 := congrArg Tile.collides hfix
    simp only [DimensionManager.activeTileUpdate, hmem, if_false] at h2 h3
    simp at h2 h3
    simp [DimensionManager.activeTileUpdate, DimensionManager.inactiveTileUpdate, hmem,
      h2, h3]

theorem applyInactivePart_after_active (c : Nat) (u : TilemapLayer)
    (h : DimensionManager.applyInactivePart c u = u) :
    DimensionManager.applyInactivePart c (DimensionManager.applyActivePart u) = u := by
  have key : DimensionManager.applyInactivePart c (DimensionManager.applyActivePart u) =
      DimensionManager.applyInactivePart c u := by
    apply TilemapLayer.ext
    · simp
    · simp
    · simp only [DimensionManager.applyInactivePart_tiles,
        DimensionManager.applyActivePart_tiles, List.map_map]
      exact List.map_congr_left fun t _ => inactive_active_tile_cancel c t
  rw [key, h]

theorem applyActivePart_after_inactive (c : Nat) (l : TilemapLayer)
    (hfix : DimensionManager.applyActivePart l = l) (hempty : emptyNonSolid l) :
    DimensionManager.applyActivePart (DimensionManager.applyInactivePart c l) = l := by
  have halpha := congrArg TilemapLayer.alpha hfix
  have hdepth := congrArg TilemapLayer.depth hfix
  have htiles := congrArg TilemapLayer.tiles hfix
  rw [DimensionManager.applyActivePart_alpha] at halpha
  rw [DimensionManager.applyActivePart_depth] at hdepth
  rw [DimensionManager.applyActivePart_tiles] at htiles
  have hpt := map_fixed_pointwise htiles
  apply TilemapLayer.ext
  · rw [DimensionManager.applyActivePart_alpha]
    exact halpha
  · rw [DimensionManager.applyActivePart_depth]
    exact hdepth
  · rw [DimensionManager.applyActivePart_tiles, DimensionManager.applyInactivePart_tiles,
      List.map_map]
    have hcell : ∀ t ∈ l.tiles,
        (DimensionManager.activeTileUpdate ∘ DimensionManager.inactiveTileUpdate c) t =
          id t := by
      intro t ht
      exact active_inactive_tile_cancel c t (hpt t ht) (hempty t ht)
    exact (List.map_congr_left hcell).trans (List.map_id l.tiles)

/-- C6: two accepted `shift()` calls starting from active = Lumina (the
second made after the first call's lock has fired) return the active
dimension to Lumina and leave both tile layers in a state identical
(alpha, tint, collision flags, depth) to the state before the first
shift; the starting state is any stable one whose layers carry the
applied Lumina-active divergence (as every reachable post-`init` state
does) with empty cells non-collidable. -/
theorem shift_round_trip (m : DimensionManager) (t1 t2 : Nat)
    (hc : m.current = DimensionType.lumina)
    (hs : m.isShifting = false)
    (hp : m.pendingUnlock = none)
    (hLfix : DimensionManager.applyActivePart m.luminaLayer = m.luminaLayer)
    (hUfix : DimensionManager.applyInactivePart DIMENSIONS.UMBRA_TINT m.umbraLayer =
      m.umbraLayer)
    (hempty : emptyNonSolid m.luminaLayer)
    (h12 : t1 + DIMENSIONS.SHIFT_DURATION_MS ≤ t2) :
    ((m.shift t1).shift t2).getCurrent = DimensionType.lumina ∧
    ((m.shift t1).shift t2).luminaLayer = m.luminaLayer ∧
    ((m.shift t1).shift t2).umbraLayer = m.umbraLayer := by
  have hstep1 : m.stepTime t1 = m := by
    simp only [DimensionManager.stepTime, hp]
  have hacc1 : (m.stepTime t1).isShifting = false := by
    rw [hstep1]; exact hs
  have hshift1 : m.shift t1 =
      { DimensionManager.shiftApplied m with
        pendingUnlock := some (t1 + DIMENSIONS.SHIFT_DURATION_MS) } := by
    rw [DimensionManager.shift, DimensionManager.shiftObs_accepted m t1 hacc1, hstep1]
  have hm1cur : (m.shift t1).current = DimensionType.umbra := by
    rw [hshift1]
    show (DimensionManager.shiftApplied m).current = DimensionType.umbra
    rw [DimensionManager.shiftApplied_current, hc]
    rfl
  have hm1pending : (m.shift t1).pendingUnlock =
      some (t1 + DIMENSIONS.SHIFT_DURATION_MS) := by
    rw [hshift1]
  obtain ⟨hm1lum, hm1umb⟩ := DimensionManager.shiftApplied_layers_of_lumina m hc
  have hm1L : (m.shift t1).luminaLayer =
      DimensionManager.applyInactivePart DIMENSIONS.LUMINA_TINT m.luminaLayer := by
    rw [hshift1]; exact hm1lum
  have hm1U : (m.shift t1).umbraLayer =
      DimensionManager.applyActivePart m.umbraLayer := by
    rw [hshift1]; exact hm1umb
  have hstep2 : (m.shift t1).stepTime t2 =
      { m.shift t1 with isShifting := false, pendingUnlock := none } := by
    simp only [DimensionManager.stepTime, hm1pending]
    rw [if_pos h12]
  have hacc2 : ((m.shift t1).stepTime t2).isShifting = false := by
    rw [hstep2]
  have hshift2 : (m.shift t1).shift t2 =
      { DimensionManager.shiftApplied ((m.shift t1).stepTime t2) with
        pendingUnlock := some (t2 + DIMENSIONS.SHIFT_DURATION_MS) } := by
    rw [DimensionManager.shift, DimensionManager.shiftObs_accepted _ t2 hacc2]
  have hcur2 : ((m.shift t1).stepTime t2).current = DimensionType.umbra := by
    rw [DimensionManager.stepTime_current]
    exact hm1cur
  obtain ⟨hfinU, hfinL⟩ :=
    DimensionManager.shiftApplied_layers_of_umbra ((m.shift t1).stepTime t2) hcur2
  refine ⟨?_, ?_, ?_⟩
  · rw [DimensionManager.getCurrent, hshift2]
    show (DimensionManager.shiftApplied ((m.shift t1).stepTime t2)).current =
      DimensionType.lumina
    rw [DimensionManager.shiftApplied_current, hcur2]
    rfl
  · rw [hshift2]
    show (DimensionManager.shiftApplied ((m.shift t1).stepTime t2)).luminaLayer =
      m.luminaLayer
    rw [hfinL, DimensionManager.stepTime_luminaLayer, hm1L]
    exact applyActivePart_after_inactive DIMENSIONS.LUMINA_TINT m.luminaLayer hLfix hempty
  · rw [hshift2]
    show (DimensionManager.shiftApplied ((m.shift t1).stepTime t2)).umbraLayer =
      m.umbraLayer
    rw [hfinU, DimensionManager.stepTime_umbraLayer, hm1U]
    exact applyInactivePart_after_active DIMENSIONS.UMBRA_TINT m.umbraLayer hUfix

/-- C6 witness: the round trip on the sample manager with accepted shifts
at t = 0 and t = 300. -/
theorem shift_round_trip_witness :
    ((sampleManager.shift 0).shift 300).getCurrent = DimensionType.lumina ∧
    ((sampleManager.shift 0).shift 300).luminaLayer = sampleManager.luminaLayer ∧
    ((sampleManager.shift 0).shift 300).umbraLayer = sampleManager.umbraLayer :=
  shift_round_trip sampleManager 0 300 (by decide) (by decide) (by decide) (by decide)
    (by decide) (by decide) (by decide)
